import Mathlib

/-!
Verification of the PDFconverter repository (two Python scripts:
PDF2JSON/separate-formats.py and Censoring-Script/pdf_censor.py) against its
natural-language specification.

The Python code is shallowly embedded: pure string/regex computations become
Lean functions on String / List Char, Python exceptions become Except values,
and filesystem effects (file writes, redaction annotations) are recorded in an
explicit effect log.  Python str semantics are modelled over ASCII (the
character classes of the re module restricted to ASCII); all labels, patterns
and literals appearing in the programs are ASCII, except for the fixed literal
" años)" which is carried verbatim.
-/

/-- Python regular-expression character class for a space character, re module
class backslash-s restricted to ASCII. -/
def isSpaceChar (c : Char) : Bool :=
  c = ' ' || c = '\t' || c = '\n' || c = '\r' || c = '\x0b' || c = '\x0c'

/-- Python regular-expression word character, re module class backslash-w
restricted to ASCII: letters, digits and the underscore. -/
def isWordChar (c : Char) : Bool :=
  c.isAlphanum || c = '_'

/-- Word-character test on an optional character; out-of-range positions
(before the start or after the end of the text) count as non-word. -/
def isWordO : Option Char → Bool
  | none => false
  | some c => isWordChar c

/-- Python str.upper restricted to ASCII. -/
def pyUpper (s : String) : String :=
  ⟨s.toList.map Char.toUpper⟩

/-- Python str.strip() with no argument: drop leading and trailing whitespace
(ASCII whitespace set). -/
def pyStrip (s : String) : String :=
  ⟨((s.toList.dropWhile isSpaceChar).reverse.dropWhile isSpaceChar).reverse⟩

/-- Substring occurrence at some position of a character list. -/
def listHasInfix (sub : List Char) : List Char → Bool
  | [] => sub.isEmpty
  | c :: rest => sub.isPrefixOf (c :: rest) || listHasInfix sub rest

/-- Python substring containment, the expression sub in s. -/
def strContains (s sub : String) : Bool :=
  listHasInfix sub.toList s.toList

/-- Python exceptions relevant to the embedded code. -/
inductive PyErr where
  /-- re.error raised while compiling an invalid regular expression. -/
  | regexError
  /-- An OSError raised by a filesystem operation (shutil.copy2, os.makedirs). -/
  | osError
deriving DecidableEq

/-- Decidable equality on Except values, used to evaluate the embedded
computations on concrete inputs. -/
instance {e a : Type} [DecidableEq e] [DecidableEq a] : DecidableEq (Except e a) := fun x y =>
  match x, y with
  | .ok u, .ok v =>
      if h : u = v then .isTrue (congrArg Except.ok h)
      else .isFalse (fun hh => h (by injection hh))
  | .error u, .error v =>
      if h : u = v then .isTrue (congrArg Except.error h)
      else .isFalse (fun hh => h (by injection hh))
  | .ok _, .error _ => .isFalse (fun hh => by injection hh)
  | .error _, .ok _ => .isFalse (fun hh => by injection hh)

/-! ## Classifier: separate-formats.py

Regex matching.  check_graph_titles counts occurrences of each lead label in
the uppercased first-page text, trying for each label the patterns
1. backslash-b TITLE backslash-b            (word boundary on both sides)
2. TITLE(?=
   backslash-s|$|:)                         (followed by space, end or colon)
3. (?<=
   backslash-s|^)TITLE(?= backslash-s|$|:)  (also preceded by space or start)
in this order, keeping the match count of the first pattern that matches at
least once.  Pattern 3 is an invalid Python regex: the look-behind
(?<= backslash-s|^) has branches of width 1 and 0, and the re module rejects
variable-width look-behind, so re.findall raises re.error the moment pattern 3
is compiled.  The embedding therefore only has the two valid patterns and
returns PyErr.regexError where the source reaches pattern 3. -/

/-- The two compilable regular-expression shapes used per label. -/
inductive TitlePattern where
  /-- Pattern 1: the label with a word boundary on both sides. -/
  | wordBoundary
  /-- Pattern 2: the label followed by whitespace, end of text or a colon.
  The dollar anchor only adds positions already covered by whitespace
  (end of text, or before a final newline). -/
  | spaceEndColon
deriving DecidableEq

/-- Zero-width look-ahead of pattern 2 at the position after the label:
succeeds at the end of the text or before whitespace or a colon. -/
def lookaheadSEC : Option Char → Bool
  | none => true
  | some c => isSpaceChar c || c = ':'

/-- Does the given pattern match the label t at the current position of the
text?  prev is the character just before the position (none at the start) and
s is the remaining text from the position on. -/
def matchHere (v : TitlePattern) (t : List Char) (prev : Option Char) (s : List Char) : Bool :=
  match v with
  | .wordBoundary =>
      t.isPrefixOf s && (isWordO prev != isWordO s.head?)
        && (isWordO t.getLast? != isWordO (s.drop t.length).head?)
  | .spaceEndColon =>
      t.isPrefixOf s && lookaheadSEC (s.drop t.length).head?

/-- Number of matches re.findall finds for the pattern built from label t:
left-to-right scan, non-overlapping, resuming right after each match.  A
match of the (nonempty) label consumes its length, realised structurally by
skipping the remaining length-minus-one characters with the skip counter. -/
def pyFindallCount (v : TitlePattern) (t : List Char) (skip : Nat) (prev : Option Char)
    (s : List Char) : Nat :=
  match s with
  | [] => 0
  | c :: rest =>
    match skip with
    | k + 1 => pyFindallCount v t k (some c) rest
    | 0 =>
      if t ≠ [] && matchHere v t prev (c :: rest) then
        1 + pyFindallCount v t (t.length - 1) (some c) rest
      else
        pyFindallCount v t 0 (some c) rest

/-- Match count of one pattern for an (already uppercased) label over an
(already uppercased) text. -/
def countPattern (v : TitlePattern) (titleU textU : String) : Nat :=
  pyFindallCount v titleU.toList 0 none textU.toList

/-- The inner pattern loop of check_graph_titles for one label: try the
patterns in order and return the count of the first pattern with at least one
match.  When patterns 1 and 2 both have zero matches the source goes on to
compile pattern 3, which raises re.error (invalid variable-width look-behind),
so the zero-count case returns the exception instead of a count. -/
def tryPatterns (titleU textU : String) : Except PyErr Nat :=
  let c1 := countPattern .wordBoundary titleU textU
  if c1 ≠ 0 then .ok c1
  else
    let c2 := countPattern .spaceEndColon titleU textU
    if c2 ≠ 0 then .ok c2
    else .error .regexError

/-- The counting loop of check_graph_titles: for each expected label (in dict
insertion order) record its match count; a label on which the pattern loop
raises stops the whole computation with that exception. -/
def computeCounts (textU : String) : List (String × Nat) → Except PyErr (List (String × Nat))
  | [] => .ok []
  | (title, _) :: rest =>
      match tryPatterns (pyUpper title) textU with
      | .error e => .error e
      | .ok c =>
        match computeCounts textU rest with
        | .error e => .error e
        | .ok tl => .ok ((title, c) :: tl)

/-- Counter lookup with default 0, Python actual_counts[title]. -/
def lookupD (l : List (String × Nat)) (k : String) : Nat :=
  match l.find? (fun p => p.1 = k) with
  | some p => p.2
  | none => 0

/-- The diagnostics dictionary built by check_graph_titles. -/
structure CheckDiagnostics where
  missing_titles : List String
  unexpected_counts : List (String × Nat × Nat)
  found_titles : List String
deriving DecidableEq

/-- The result dictionary returned by check_graph_titles. -/
structure CheckResult where
  is_valid : Bool
  actual_counts : List (String × Nat)
  expected_counts : List (String × Nat)
  diagnostics : CheckDiagnostics
deriving DecidableEq

/-- check_graph_titles from separate-formats.py: uppercase the text, count
each expected label with the pattern loop, then classify each label as
missing (count 0), unexpected (count differs from expected) or found, and
declare validity when nothing is missing and no count is unexpected.
Exceptions from the regex engine propagate. -/
def check_graph_titles (text : String) (expected_titles : List (String × Nat)) :
    Except PyErr CheckResult :=
  let processed_text := pyUpper text
  match computeCounts processed_text expected_titles with
  | .error e => .error e
  | .ok actual_counts =>
  let missing := expected_titles.filterMap
    (fun p => if lookupD actual_counts p.1 = 0 then some p.1 else none)
  let unexpected := expected_titles.filterMap
    (fun p =>
      let a := lookupD actual_counts p.1
      if a ≠ 0 ∧ a ≠ p.2 then some (p.1, (p.2, a)) else none)
  let found := expected_titles.filterMap
    (fun p =>
      let a := lookupD actual_counts p.1
      if a ≠ 0 ∧ a = p.2 then some p.1 else none)
  .ok { is_valid := missing.isEmpty && unexpected.isEmpty
        actual_counts := actual_counts
        expected_counts := expected_titles
        diagnostics :=
          { missing_titles := missing
            unexpected_counts := unexpected
            found_titles := found } }

/-- FORMAT1_TITLES from separate-formats.py (dict in insertion order). -/
def FORMAT1_TITLES : List (String × Nat) :=
  [("I", 1), ("II", 1), ("III", 1), ("V1", 2), ("V2", 1), ("V3", 1),
   ("V4", 1), ("V5", 1), ("V6", 1), ("aVR", 1), ("aVL", 1), ("aVF", 1)]

/-- FORMAT2_TITLES from separate-formats.py (dict in insertion order). -/
def FORMAT2_TITLES : List (String × Nat) :=
  [("I", 1), ("II", 2), ("III", 1), ("V1", 2), ("V2", 1), ("V3", 1),
   ("V4", 1), ("V5", 2), ("V6", 1), ("aVR", 1), ("aVL", 1), ("aVF", 1)]

/-- ECG_FORMATS from separate-formats.py (dict in insertion order). -/
def ECG_FORMATS : List (String × List (String × Nat)) :=
  [("format1", FORMAT1_TITLES), ("format2", FORMAT2_TITLES)]

/-- The loop of check_all_formats over the format dictionary, with the
accumulator holding the first matching format found so far: on a second valid
format the function returns (None, None) at once (ambiguity), otherwise at the
end it returns the unique match or (None, None). -/
def checkFormatsLoop (text : String) :
    List (String × List (String × Nat)) → Option (String × CheckResult) →
    Except PyErr (Option String × Option CheckResult)
  | [], acc =>
      .ok (match acc with
           | none => (none, none)
           | some (n, r) => (some n, some r))
  | (format_name, format_titles) :: rest, acc =>
      match check_graph_titles text format_titles with
      | .error e => .error e
      | .ok results =>
      if results.is_valid then
        match acc with
        | some _ => .ok (none, none)
        | none => checkFormatsLoop text rest (some (format_name, results))
      else
        checkFormatsLoop text rest acc

/-- check_all_formats from separate-formats.py. -/
def check_all_formats (text : String) : Except PyErr (Option String × Option CheckResult) :=
  checkFormatsLoop text ECG_FORMATS none

/-! ## Redactor: pdf_censor.py

Path handling (posix os.path), the gender/age extraction from each rectangle,
and the two redaction passes.  Coordinates are modelled as integers: the
source uses Python floats, but every claim about the coordinates concerns only
the ring and order structure of the mirroring transform, never fractional
values or rounding. -/

/-- posix os.path.basename: the part of the path after the last slash. -/
def pyBasename (s : String) : String :=
  ⟨(s.toList.reverse.takeWhile (fun c => c ≠ '/')).reverse⟩

/-- posix os.path.splitext restricted to strings without a slash, which is how
censor_pdf uses it (it is applied to a basename): split at the last dot,
except that a dot preceded only by dots (a leading-dot name such as
".bashrc") yields no extension. -/
def pySplitextBase (p : String) : String × String :=
  let l := p.toList
  let tailNoDot := l.reverse.takeWhile (fun c => c ≠ '.')
  if tailNoDot.length = l.length then (p, "")
  else
    let d := l.length - tailNoDot.length - 1
    if (l.take d).all (fun c => c = '.') then (p, "")
    else (⟨l.take d⟩, ⟨l.drop d⟩)

/-- posix os.path.join for two components: an absolute second component wins;
otherwise the components are glued, inserting a slash unless the first one is
empty or already ends with a slash. -/
def pyJoin (a b : String) : String :=
  if b.toList.head? = some '/' then b
  else
    match a.toList.reverse with
    | [] => a ++ b
    | c :: _ => if c = '/' then a ++ b else a ++ "/" ++ b

/-- posix os.path.dirname: everything before the last slash, with trailing
slashes stripped unless the result consists of slashes only. -/
def pyDirname (s : String) : String :=
  let l := s.toList
  let head := l.take (l.length - (l.reverse.takeWhile (fun c => c ≠ '/')).length)
  if head ≠ [] ∧ ¬ head.all (fun c => c = '/') then
    ⟨(head.reverse.dropWhile (fun c => c = '/')).reverse⟩
  else ⟨head⟩

/-- Output path computed at the top of censor_pdf: the input basename with
"_censored" inserted before the extension, placed in output_dir when given and
next to the input otherwise. -/
def outputPath (pdf_path : String) (output_dir : Option String) : String :=
  let base_name := pyBasename pdf_path
  let pe := pySplitextBase base_name
  let newBase := pe.1 ++ "_censored" ++ pe.2
  match output_dir with
  | some d => pyJoin d newBase
  | none => pyJoin (pyDirname pdf_path) newBase

/-- Gender extraction from a rectangle's text in censor_pdf: the literal
"Masculino" is checked first, "Femenino" only in the elif branch. -/
def extractGender (text : String) : Option String :=
  if strContains text "Masculino" then some "Masculino"
  else if strContains text "Femenino" then some "Femenino"
  else none

/-- Python re.search for the age pattern: an opening parenthesis, one or more
digits (group 1), then the literal " años)".  The scan returns the digits of
the leftmost match.  Greedy digit matching cannot lose a match here because
the character after the digit run would have to be both a digit and a space
for backtracking to matter. -/
def ageSearch : List Char → Option (List Char)
  | [] => none
  | c :: rest =>
    if c = '(' then
      let ds := rest.takeWhile Char.isDigit
      if ds ≠ [] && " años)".toList.isPrefixOf (rest.drop ds.length) then some ds
      else ageSearch rest
    else ageSearch rest

/-- Age extraction from a rectangle's text in censor_pdf: the regex search
followed by re-wrapping group 1 in the fixed literal pattern. -/
def extractAge (text : String) : Option String :=
  match ageSearch text.toList with
  | some ds => some ("(" ++ ⟨ds⟩ ++ " años)")
  | none => none

/-- A transformed rectangle handed to the PDF library (fitz.Rect). -/
abbrev Rect4 := ℤ × ℤ × ℤ × ℤ

/-- One entry of extracted_info: the transformed rectangle together with the
gender and age found in its text. -/
structure RectInfo where
  rect : Rect4
  gender : Option String
  age : Option String
deriving DecidableEq

/-- First pass of censor_pdf over all_rectangles: skip rectangles that do not
have exactly four coordinates, mirror the vertical extent against the page
width, read the text of the transformed rectangle and keep the entry when a
gender or an age was found. -/
def extractPass (clip : Rect4 → String) (page_width : ℤ) : List (List ℤ) → List RectInfo
  | [] => []
  | r :: rest =>
    match r with
    | [x1, y1, x2, y2] =>
      let redact_rect : Rect4 := (x1, page_width - y2, x2, page_width - y1)
      let text := clip redact_rect
      let gender := extractGender text
      let age := extractAge text
      if gender.isSome || age.isSome then
        { rect := redact_rect, gender := gender, age := age } :: extractPass clip page_width rest
      else extractPass clip page_width rest
    | _ => extractPass clip page_width rest

/-- Second pass of censor_pdf: the same length check and the same coordinate
transform, collecting the rectangles on which a black redaction annotation is
added. -/
def redactPass (page_width : ℤ) : List (List ℤ) → List Rect4
  | [] => []
  | r :: rest =>
    match r with
    | [x1, y1, x2, y2] => (x1, page_width - y2, x2, page_width - y1) :: redactPass page_width rest
    | _ => redactPass page_width rest

/-- A page of an open fitz document: its full extracted text, its width, and
the text the library returns for a clip rectangle. -/
structure PyPage where
  text : String
  width : ℤ
  clip : Rect4 → String

/-- An open fitz document is its list of pages. -/
structure PyDoc where
  pages : List PyPage

/-- Effect log of one censor_pdf call: the returned value, the files written
by doc.save, the rectangles redacted, and the overlay strings inserted by the
third pass. -/
structure CensorRun where
  result : Option String
  writes : List String
  redactions : List Rect4
  overlays : List String
deriving DecidableEq

/-- The rectangles of every page list of the coordinates dictionary,
flattened in insertion order (the page-number keys are ignored). -/
def allRectangles (coordinates_dict : List (Nat × List (List ℤ))) : List (List ℤ) :=
  (coordinates_dict.map Prod.snd).flatten

/-- Overlay text of one extracted_info entry in the third pass: the gender
and the age that are present, joined by a space (the entry always has at
least one of them, so the insert always happens for the entry). -/
def overlayText (info : RectInfo) : String :=
  String.intercalate " " (info.gender.toList ++ info.age.toList)

/-- censor_pdf from pdf_censor.py as a pure function from the abstracted
document to the returned value plus the effect log.  The output filename is
computed first; the function returns None without saving when the document
has no pages, when the stripped text of the first page is empty (scanned
PDF), or when no rectangle yielded gender or age; otherwise it applies the
redactions, optionally inserts the overlays, saves the output file and
returns its path.  The multi-page branch only changes which pages reach the
saved file and is invisible to the recorded effects. -/
def censor_pdf (pdf_path : String) (coordinates_dict : List (Nat × List (List ℤ)))
    (doc : PyDoc) (output_dir : Option String) (include_info : Bool) : CensorRun :=
  let output_path := outputPath pdf_path output_dir
  match doc.pages with
  | [] => { result := none, writes := [], redactions := [], overlays := [] }
  | page :: _ =>
    if pyStrip page.text = "" then
      { result := none, writes := [], redactions := [], overlays := [] }
    else
      let page_width := page.width
      let all_rectangles := allRectangles coordinates_dict
      let extracted_info := extractPass page.clip page_width all_rectangles
      if extracted_info.isEmpty then
        { result := none, writes := [], redactions := [], overlays := [] }
      else
        { result := some output_path
          writes := [output_path]
          redactions := redactPass page_width all_rectangles
          overlays := if include_info then extracted_info.map overlayText else [] }

/-! ## Folder drivers

process_pdf_folder (pdf_censor.py) and the per-file loop of main
(separate-formats.py).  The per-file work (censor_pdf on an opened document,
validate_ecg_format) and the filesystem copies are abstracted into per-file
outcomes, because their failures come from the environment; the loops, the
try/except structure and the counters are embedded faithfully.  In
process_pdf_folder the whole body of the if-branch sits inside the try block
(including the copy of a failed file), while the copy inside the except
handler is not protected by any try; in main the copy inside the except
handler has its own inner try/except. -/

/-- Python str.lower restricted to ASCII. -/
def pyLower (s : String) : String :=
  ⟨s.toList.map Char.toLower⟩

/-- Python str.endswith. -/
def pyEndsWith (s t : String) : Bool :=
  t.toList.reverse.isPrefixOf s.toList.reverse

/-- What the censor_pdf call does for one file of the folder. -/
inductive CensorOutcome where
  /-- censor_pdf returned an output path. -/
  | success (output_path : String)
  /-- censor_pdf returned None (processing failed without an exception). -/
  | returnsNone
  /-- censor_pdf raised an exception. -/
  | raises
deriving DecidableEq

/-- One directory entry seen by process_pdf_folder, with the behaviour of the
environment for this file: the outcome of censor_pdf, whether the
shutil.copy2 inside the try block (after censor_pdf returned None) raises,
and whether the shutil.copy2 inside the except handler raises. -/
structure CFile where
  name : String
  outcome : CensorOutcome
  copyFailsFirst : Bool
  copyFailsHandler : Bool
deriving DecidableEq

/-- The per-file loop of process_pdf_folder, carrying the processed_files and
failed_files lists.  A file whose lowercased name does not end in ".pdf" is
skipped.  Inside the try block: a successful censor_pdf appends to
processed_files; a None result appends the file name to failed_files and
copies the file to the Failed folder — if that copy raises, control moves to
the except handler, which appends the file name to failed_files a second
time.  Any exception reaching the handler triggers the handler's own copy to
the Failed folder; that copy is protected by no try, so its exception
propagates out of the loop and aborts the whole batch. -/
def processLoop : List CFile → List String → List String →
    Except PyErr (List String × List String)
  | [], processed_files, failed_files => .ok (processed_files, failed_files)
  | f :: rest, processed_files, failed_files =>
    if pyEndsWith (pyLower f.name) ".pdf" then
      match f.outcome with
      | .success out => processLoop rest (processed_files ++ [out]) failed_files
      | .returnsNone =>
          if f.copyFailsFirst then
            if f.copyFailsHandler then .error .osError
            else processLoop rest processed_files (failed_files ++ [f.name, f.name])
          else processLoop rest processed_files (failed_files ++ [f.name])
      | .raises =>
          if f.copyFailsHandler then .error .osError
          else processLoop rest processed_files (failed_files ++ [f.name])
    else processLoop rest processed_files failed_files

/-- process_pdf_folder from pdf_censor.py, reduced to its per-file loop and
final lists (directory creation and printing are elided). -/
def process_pdf_folder (files : List CFile) : Except PyErr (List String × List String) :=
  processLoop files [] []

/-- Number of entries of the folder that the loop treats as PDF files. -/
def pdfFileCount (files : List CFile) : Nat :=
  (files.filter (fun f => pyEndsWith (pyLower f.name) ".pdf")).length

/-- What validate_ecg_format does for one file of the classifier's main. -/
inductive ValidateOutcome where
  /-- A unique matching format was returned. -/
  | matched (format_name : String)
  /-- No matching format (including the ambiguous case). -/
  | noMatch
  /-- validate_ecg_format raised an exception. -/
  | raises
deriving DecidableEq

/-- One entry of the pdf_files list of main, with the behaviour of the
environment: the outcome of validate_ecg_format, whether the shutil.copy2
inside the try block raises, and whether the copy inside the except handler
raises.  The handler copy sits in its own inner try/except, so its failure is
only printed and never changes control flow or the counters. -/
structure VFile where
  name : String
  outcome : ValidateOutcome
  copyFails : Bool
  handlerCopyFails : Bool
deriving DecidableEq

/-- The per-file loop of main in separate-formats.py, carrying the correct
and incorrect counters.  A matched file increments correct and is then
copied; if the copy raises, the except handler additionally increments
incorrect.  An unmatched file increments incorrect and is copied; if the copy
raises, the handler increments incorrect again.  A raising validation goes
straight to the handler, which increments incorrect.  The handler's own copy
failure is caught by the inner try/except and affects nothing. -/
def mainLoop : List VFile → Nat → Nat → Nat × Nat
  | [], correct, incorrect => (correct, incorrect)
  | f :: rest, correct, incorrect =>
    match f.outcome with
    | .matched _ =>
        if f.copyFails then mainLoop rest (correct + 1) (incorrect + 1)
        else mainLoop rest (correct + 1) incorrect
    | .noMatch =>
        if f.copyFails then mainLoop rest correct (incorrect + 2)
        else mainLoop rest correct (incorrect + 1)
    | .raises => mainLoop rest correct (incorrect + 1)

/-- The statistics dictionary of main after the loop: total is the length of
the pdf_files list, set before the loop. -/
structure MainStats where
  total : Nat
  correct : Nat
  incorrect : Nat
deriving DecidableEq

/-- The loop of main over the (already .pdf-filtered) file list, started with
zeroed counters. -/
def mainStats (pdf_files : List VFile) : MainStats :=
  let ci := mainLoop pdf_files 0 0
  { total := pdf_files.length, correct := ci.1, incorrect := ci.2 }

/-! ## Theorems for the claims -/

/-- Claim C2: The claim says a label with zero occurrences is listed under
missing_titles and fails validation.  On the code, a label that neither
pattern 1 nor pattern 2 matches sends the loop to pattern 3, whose
compilation raises re.error, so check_graph_titles raises instead of
reporting: on a first-page text containing every format-1 label except aVF,
the call returns the regex exception and produces no result at all (the
missing_titles branch of the source is unreachable). -/
theorem check_graph_titles_missing_label_raises :
    check_graph_titles "I II III V1 V1 V2 V3 V4 V5 V6 AVR AVL" FORMAT1_TITLES
      = .error .regexError := by decide

/-- Claim C5: The per-label pattern loop takes the match count of the first
pattern with at least one match, in the fixed order word-boundary first,
then the space-end-colon look-ahead: on "I" versus "I" pattern 1 already
matches, on "I" versus "XI" pattern 1 finds nothing and pattern 2's count is
recorded.  But when both compilable patterns yield zero matches, the claim's
final clause fails on the code: compiling the third pattern raises re.error
(variable-width look-behind), so no count of 0 is ever recorded. -/
theorem title_patterns_priority_and_third_raises :
    tryPatterns "I" "I" = .ok 1 ∧
    (countPattern .wordBoundary "I" "XI" = 0 ∧ tryPatterns "I" "XI" = .ok 1) ∧
    (countPattern .wordBoundary "I" "HELLO" = 0 ∧
     countPattern .spaceEndColon "I" "HELLO" = 0 ∧
     tryPatterns "I" "HELLO" = .error .regexError) := by decide

/-- Claim C10: Gender extraction prefers "Masculino": a rectangle text containing
both literals yields "Masculino", and "Femenino" is only ever extracted from
a text that does not contain "Masculino". -/
theorem extractGender_masculino_priority :
    ∀ text : String,
      (strContains text "Masculino" = true → strContains text "Femenino" = true →
        extractGender text = some "Masculino") ∧
      (extractGender text = some "Femenino" → strContains text "Masculino" = false) := by
  intro text
  constructor
  · intro hm _
    simp [extractGender, hm]
  · intro hf
    by_contra hm
    simp only [Bool.not_eq_false] at hm
    simp [extractGender, hm] at hf

/-- Witness for C10 at concrete rectangle texts. -/
theorem extractGender_masculino_priority_witness :
    extractGender "xMasculinoFemenino" = some "Masculino" ∧
    strContains "Femenino" "Masculino" = false :=
  ⟨(extractGender_masculino_priority "xMasculinoFemenino").1 (by decide) (by decide),
   (extractGender_masculino_priority "Femenino").2 (by decide)⟩

/-- In any state of the format loop, a normally returned pair has its two
components None together and non-None together. -/
lemma checkFormatsLoop_none_iff :
    ∀ (fmts : List (String × List (String × Nat))) (text : String)
      (acc : Option (String × CheckResult)) (r : Option String × Option CheckResult),
      checkFormatsLoop text fmts acc = .ok r → (r.1 = none ↔ r.2 = none) := by
  intro fmts
  induction fmts with
  | nil =>
    intro text acc r h
    match acc with
    | none =>
      simp only [checkFormatsLoop, Except.ok.injEq] at h
      subst h
      simp
    | some (n, res) =>
      simp only [checkFormatsLoop, Except.ok.injEq] at h
      subst h
      simp
  | cons hd tl ih =>
    intro text acc r h
    obtain ⟨name, titles⟩ := hd
    simp only [checkFormatsLoop] at h
    match hh : check_graph_titles text titles with
    | .error e => rw [hh] at h; simp [Except.bind] at h
    | .ok res =>
      rw [hh] at h
      simp only [Except.bind] at h
      by_cases hv : res.is_valid
      · rw [if_pos hv] at h
        match acc with
        | none => exact ih text (some (name, res)) r h
        | some p =>
          simp only [Except.ok.injEq] at h
          subst h
          simp
      · rw [if_neg hv] at h
        exact ih text acc r h

/-- Claim C9: check_all_formats (and hence validate_ecg_format, which returns its
pair unchanged) never returns a pair with exactly one None component: on no
match and on an ambiguous match both the format name and the results are
None, and on a unique match both are present. -/
theorem check_all_formats_components_iff :
    ∀ (text : String) (r : Option String × Option CheckResult),
      check_all_formats text = .ok r → (r.1 = none ↔ r.2 = none) :=
  fun text r h => checkFormatsLoop_none_iff ECG_FORMATS text none r h

/-- Witness for C9 on a text whose labels are all present but match neither
format's counts, so that the call returns normally with the pair
(None, None). -/
theorem check_all_formats_components_iff_witness :
    ((none : Option String) = none ↔ (none : Option CheckResult) = none) :=
  check_all_formats_components_iff "I I II III V1 V2 V3 V4 V5 V6 AVR AVL AVF"
    (none, none) (by decide)

/-- Claim C1: Ambiguity defeats classification.  First part: for the format loop
over any two templates (the loop check_all_formats runs on ECG_FORMATS), if
check_graph_titles reports is_valid for both, the loop returns the pair
(None, None), i.e. no match.  The claim is stated for FORMAT1_TITLES and
FORMAT2_TITLES themselves, where both-valid cannot actually occur (the
actual count of "II" cannot equal both expected counts 1 and 2), so the
tie-break is proved for the loop with the templates generalised.  Second
part: on the real formats, classification succeeds (a format name is
returned) exactly when that template is valid and the other is not. -/
theorem check_all_formats_ambiguity_no_match :
    (∀ (text n1 n2 : String) (t1 t2 : List (String × Nat)) (r1 r2 : CheckResult),
      check_graph_titles text t1 = .ok r1 → r1.is_valid = true →
      check_graph_titles text t2 = .ok r2 → r2.is_valid = true →
      checkFormatsLoop text [(n1, t1), (n2, t2)] none = .ok (none, none)) ∧
    (∀ (text n : String) (r : Option CheckResult),
      check_all_formats text = .ok (some n, r) →
      ∃ r1 r2, check_graph_titles text FORMAT1_TITLES = .ok r1 ∧
        check_graph_titles text FORMAT2_TITLES = .ok r2 ∧
        ((n = "format1" ∧ r1.is_valid = true ∧ r2.is_valid = false) ∨
         (n = "format2" ∧ r1.is_valid = false ∧ r2.is_valid = true))) := by
  constructor
  · intro text n1 n2 t1 t2 r1 r2 h1 hv1 h2 hv2
    simp only [checkFormatsLoop, h1, h2, hv1, hv2, if_true]
  · intro text n r h
    simp only [check_all_formats, ECG_FORMATS, checkFormatsLoop] at h
    split at h
    · exact absurd h (by simp)
    · rename_i r1 hh1
      split at h
      · rename_i hv1
        split at h
        · exact absurd h (by simp)
        · rename_i r2 hh2
          split at h
          · exact absurd h (by simp)
          · rename_i hv2
            simp only [Except.ok.injEq, Prod.mk.injEq, Option.some.injEq] at h
            exact ⟨r1, r2, hh1, hh2,
              Or.inl ⟨h.1.symm, hv1, by simpa using hv2⟩⟩
      · rename_i hv1
        split at h
        · exact absurd h (by simp)
        · rename_i r2 hh2
          split at h
          · rename_i hv2
            simp only [Except.ok.injEq, Prod.mk.injEq, Option.some.injEq] at h
            exact ⟨r1, r2, hh1, hh2,
              Or.inr ⟨h.1.symm, by simpa using hv1, hv2⟩⟩
          · exact absurd h (by simp)

/-- Witness for C1: a pair of one-label templates that a one-word text
satisfies simultaneously, on which the loop reports no match. -/
theorem check_all_formats_ambiguity_no_match_witness :
    checkFormatsLoop "V2" [("format1", [("V2", 1)]), ("format2", [("V2", 1)])] none
      = .ok (none, none) :=
  check_all_formats_ambiguity_no_match.1 "V2" "format1" "format2"
    [("V2", 1)] [("V2", 1)]
    { is_valid := true, actual_counts := [("V2", 1)], expected_counts := [("V2", 1)],
      diagnostics := { missing_titles := [], unexpected_counts := [], found_titles := ["V2"] } }
    { is_valid := true, actual_counts := [("V2", 1)], expected_counts := [("V2", 1)],
      diagnostics := { missing_titles := [], unexpected_counts := [], found_titles := ["V2"] } }
    (by decide) (by decide) (by decide) (by decide)

/-- The extraction pass finds nothing exactly when no four-coordinate
rectangle's mirrored region has a gender substring or an age match. -/
lemma extractPass_eq_nil_iff (clip : Rect4 → String) (W : ℤ) :
    ∀ rects : List (List ℤ),
      (extractPass clip W rects = [] ↔
        ∀ r ∈ rects, ∀ x1 y1 x2 y2 : ℤ, r = [x1, y1, x2, y2] →
          extractGender (clip (x1, W - y2, x2, W - y1)) = none ∧
          extractAge (clip (x1, W - y2, x2, W - y1)) = none) := by
  intro rects
  induction rects with
  | nil => simp [extractPass]
  | cons r rest ih =>
    have skipStep : ∀ s : List ℤ, (∀ x1 y1 x2 y2 : ℤ, s = [x1, y1, x2, y2] → False) →
        ((∀ r2 ∈ rest, ∀ x1 y1 x2 y2 : ℤ, r2 = [x1, y1, x2, y2] →
            extractGender (clip (x1, W - y2, x2, W - y1)) = none ∧
            extractAge (clip (x1, W - y2, x2, W - y1)) = none) ↔
          (∀ r2 ∈ s :: rest, ∀ x1 y1 x2 y2 : ℤ, r2 = [x1, y1, x2, y2] →
            extractGender (clip (x1, W - y2, x2, W - y1)) = none ∧
            extractAge (clip (x1, W - y2, x2, W - y1)) = none)) := by
      intro s hbad
      constructor
      · intro hr r2 hr2
        rcases List.mem_cons.mp hr2 with heq | hmem
        · intro x1 y1 x2 y2 hcon
          rw [heq] at hcon
          exact absurd hcon (fun hc => hbad x1 y1 x2 y2 hc)
        · exact hr r2 hmem
      · intro hr r2 hmem
        exact hr r2 (List.mem_cons_of_mem _ hmem)
    match r with
    | [] =>
      rw [show extractPass clip W ([] :: rest) = extractPass clip W rest from rfl, ih]
      exact skipStep [] (by intro x1 y1 x2 y2 hc; cases hc)
    | [a] =>
      rw [show extractPass clip W ([a] :: rest) = extractPass clip W rest from rfl, ih]
      exact skipStep [a] (by intro x1 y1 x2 y2 hc; simp at hc)
    | [a, b] =>
      rw [show extractPass clip W ([a, b] :: rest) = extractPass clip W rest from rfl, ih]
      exact skipStep [a, b] (by intro x1 y1 x2 y2 hc; simp at hc)
    | [a, b, c] =>
      rw [show extractPass clip W ([a, b, c] :: rest) = extractPass clip W rest from rfl, ih]
      exact skipStep [a, b, c] (by intro x1 y1 x2 y2 hc; simp at hc)
    | a :: b :: c :: d :: e :: tl =>
      rw [show extractPass clip W ((a :: b :: c :: d :: e :: tl) :: rest)
            = extractPass clip W rest from rfl, ih]
      exact skipStep (a :: b :: c :: d :: e :: tl)
        (by intro x1 y1 x2 y2 hc; simp at hc)
    | [x1, y1, x2, y2] =>
      simp only [extractPass]
      by_cases hg :
        (extractGender (clip (x1, W - y2, x2, W - y1))).isSome
          || (extractAge (clip (x1, W - y2, x2, W - y1))).isSome
      · rw [if_pos hg]
        simp only [List.cons_ne_nil, false_iff]
        intro hall
        have hme := hall [x1, y1, x2, y2] (List.mem_cons_self _ _) x1 y1 x2 y2 rfl
        rw [hme.1, hme.2] at hg
        simp at hg
      · rw [if_neg hg]
        simp only [Bool.or_eq_true, not_or, Bool.not_eq_true] at hg
        rw [ih]
        constructor
        · intro hr r2 hr2
          rcases List.mem_cons.mp hr2 with heq | hmem
          · intro a1 b1 a2 b2 hcon
            rw [heq] at hcon
            injection hcon with e1 hcon; injection hcon with e2 hcon
            injection hcon with e3 hcon; injection hcon with e4 hcon
            subst e1; subst e2; subst e3; subst e4
            constructor
            · cases hgo : extractGender (clip (x1, W - y2, x2, W - y1)) with
              | none => rfl
              | some v => rw [hgo] at hg; simp at hg
            · cases hao : extractAge (clip (x1, W - y2, x2, W - y1)) with
              | none => rfl
              | some v => rw [hao] at hg; simp at hg
          · exact hr r2 hmem
        · intro hr r2 hmem
          exact hr r2 (List.mem_cons_of_mem _ hmem)

/-- Claim C3: censor_pdf returns None and saves nothing exactly when the document
has no pages, the stripped text of the first page is empty (scanned PDF), or
no four-coordinate rectangle's mirrored region yields a gender substring or
an age match; otherwise it saves exactly one file, the computed output path,
and returns that path. -/
theorem censor_pdf_failure_conditions :
    ∀ (pdf_path : String) (dict : List (Nat × List (List ℤ))) (doc : PyDoc)
      (output_dir : Option String) (include_info : Bool),
      ((censor_pdf pdf_path dict doc output_dir include_info).result = none ↔
        doc.pages = [] ∨
        ∃ page rest, doc.pages = page :: rest ∧
          (pyStrip page.text = "" ∨
            ∀ r ∈ allRectangles dict, ∀ x1 y1 x2 y2 : ℤ, r = [x1, y1, x2, y2] →
              extractGender (page.clip (x1, page.width - y2, x2, page.width - y1)) = none ∧
              extractAge (page.clip (x1, page.width - y2, x2, page.width - y1)) = none)) ∧
      ((censor_pdf pdf_path dict doc output_dir include_info).writes = [] ↔
        (censor_pdf pdf_path dict doc output_dir include_info).result = none) ∧
      (∀ p, (censor_pdf pdf_path dict doc output_dir include_info).result = some p →
        p = outputPath pdf_path output_dir ∧
        (censor_pdf pdf_path dict doc output_dir include_info).writes = [p]) := by
  intro pdf_path dict doc output_dir include_info
  obtain ⟨pages⟩ := doc
  match pages with
  | [] =>
    refine ⟨?_, ?_, ?_⟩
    · simp [censor_pdf]
    · simp [censor_pdf]
    · intro p hp
      simp [censor_pdf] at hp
  | page :: rest =>
    by_cases hs : pyStrip page.text = ""
    · refine ⟨?_, ?_, ?_⟩
      · simp only [censor_pdf, if_pos hs]
        simp only [true_iff]
        exact Or.inr ⟨page, rest, rfl, Or.inl hs⟩
      · simp [censor_pdf, if_pos hs]
      · intro p hp
        simp [censor_pdf, if_pos hs] at hp
    · by_cases he : extractPass page.clip page.width (allRectangles dict) = []
      · have hie : (extractPass page.clip page.width (allRectangles dict)).isEmpty = true :=
          List.isEmpty_iff.mpr he
        refine ⟨?_, ?_, ?_⟩
        · simp only [censor_pdf, if_neg hs, if_pos hie]
          simp only [true_iff]
          refine Or.inr ⟨page, rest, rfl, Or.inr ?_⟩
          exact (extractPass_eq_nil_iff page.clip page.width (allRectangles dict)).mp he
        · simp [censor_pdf, if_neg hs, he]
        · intro p hp
          simp [censor_pdf, if_neg hs, he] at hp
      · have hie : ¬ ((extractPass page.clip page.width (allRectangles dict)).isEmpty = true) :=
          fun hx => he (List.isEmpty_iff.mp hx)
        refine ⟨?_, ?_, ?_⟩
        · simp only [censor_pdf, if_neg hs, if_neg hie]
          refine iff_of_false (by simp) ?_
          intro hcon
          rcases hcon with hnil | ⟨page2, rest2, heq, hdis⟩
          · cases hnil
          · injection heq with h1 h2
            subst h1
            rcases hdis with hdis | hdis
            · exact hs hdis
            · exact he ((extractPass_eq_nil_iff page.clip page.width
                (allRectangles dict)).mpr hdis)
        · simp [censor_pdf, if_neg hs, he]
        · intro p hp
          simp only [censor_pdf, if_neg hs, if_neg hie, Option.some.injEq] at hp
          subst hp
          exact ⟨rfl, by simp only [censor_pdf, if_neg hs, if_neg hie]⟩

/-- Concrete document for evaluating the redactor model: one page whose
regions all read "Masculino (45 años)". -/
def samplePage : PyPage :=
  { text := "hola", width := 200, clip := fun _ => "Masculino (45 años)" }

/-- Concrete one-page document for the redactor model. -/
def sampleDoc : PyDoc := { pages := [samplePage] }

/-- Concrete coordinates dictionary with a single rectangle under page 0. -/
def sampleDict : List (Nat × List (List ℤ)) := [(0, [[39, 7, 95, 107]])]

/-- Witness for C3: a successful run saves exactly the computed output file
and returns its path. -/
theorem censor_pdf_failure_conditions_witness :
    "in/x_censored.pdf" = outputPath "in/x.pdf" none ∧
    (censor_pdf "in/x.pdf" sampleDict sampleDoc none true).writes = ["in/x_censored.pdf"] :=
  (censor_pdf_failure_conditions "in/x.pdf" sampleDict sampleDoc none true).2.2
    "in/x_censored.pdf" (by decide)

/-- Claim C4: For a four-coordinate rectangle (x1, y1, x2, y2) and page width W,
both passes of censor_pdf use the same mirrored region (x1, W − y2, x2,
W − y1): the redaction pass emits exactly that rectangle, the extraction pass
stores exactly that rectangle (when it keeps the entry at all), the
x-coordinates are untouched, ordered vertical bounds stay ordered
(y1 ≤ y2 gives W − y2 ≤ W − y1), and a rectangle of any other length is
skipped by both passes. -/
theorem redaction_rect_transform :
    ∀ (W x1 y1 x2 y2 : ℤ) (clip : Rect4 → String) (rest : List (List ℤ)),
      redactPass W ([x1, y1, x2, y2] :: rest)
        = (x1, W - y2, x2, W - y1) :: redactPass W rest ∧
      extractPass clip W ([x1, y1, x2, y2] :: rest)
        = (if (extractGender (clip (x1, W - y2, x2, W - y1))).isSome
              || (extractAge (clip (x1, W - y2, x2, W - y1))).isSome
           then [{ rect := (x1, W - y2, x2, W - y1),
                   gender := extractGender (clip (x1, W - y2, x2, W - y1)),
                   age := extractAge (clip (x1, W - y2, x2, W - y1)) }]
           else []) ++ extractPass clip W rest ∧
      (y1 ≤ y2 → W - y2 ≤ W - y1) ∧
      (∀ r : List ℤ, r.length ≠ 4 →
        redactPass W (r :: rest) = redactPass W rest ∧
        extractPass clip W (r :: rest) = extractPass clip W rest) := by
  intro W x1 y1 x2 y2 clip rest
  refine ⟨rfl, ?_, ?_, ?_⟩
  · simp only [extractPass]
    by_cases hg :
      (extractGender (clip (x1, W - y2, x2, W - y1))).isSome
        || (extractAge (clip (x1, W - y2, x2, W - y1))).isSome
    · rw [if_pos hg, if_pos hg]
      rfl
    · rw [if_neg hg, if_neg hg]
      rfl
  · intro hy
    exact sub_le_sub_left hy W
  · intro r hr
    match r with
    | [] => exact ⟨rfl, rfl⟩
    | [a] => exact ⟨rfl, rfl⟩
    | [a, b] => exact ⟨rfl, rfl⟩
    | [a, b, c] => exact ⟨rfl, rfl⟩
    | [a, b, c, d] => exact absurd rfl hr
    | a :: b :: c :: d :: e :: tl => exact ⟨rfl, rfl⟩

/-- Witness for C4 at a concrete rectangle, page width and a skipped
one-coordinate rectangle. -/
theorem redaction_rect_transform_witness :
    redactPass 200 [[39, 7, 95, 107]] = [(39, 93, 95, 193)] ∧
    ((200 : ℤ) - 107 ≤ 200 - 7) ∧
    redactPass 200 [[5]] = redactPass 200 [] := by
  have h := redaction_rect_transform 200 39 7 95 107 (fun _ => "") []
  refine ⟨?_, h.2.2.1 (by decide), (h.2.2.2 [5] (by decide)).1⟩
  have h1 := h.1
  simpa using h1

/-- A basename never contains the path separator. -/
lemma pyBasename_chars (s : String) : ∀ c ∈ (pyBasename s).data, c ≠ '/' := by
  intro c hc
  have hc2 : c ∈ s.data.reverse.takeWhile (fun c => c ≠ '/') := List.mem_reverse.mp hc
  have := List.mem_takeWhile_imp hc2
  exact of_decide_eq_true this

/-- takeWhile walks through a whole first block that satisfies the
predicate. -/
lemma takeWhile_append_of_all {p : Char → Bool} :
    ∀ (l1 l2 : List Char), (∀ a ∈ l1, p a = true) →
      (l1 ++ l2).takeWhile p = l1 ++ l2.takeWhile p := by
  intro l1
  induction l1 with
  | nil => intro l2 _; rfl
  | cons a t ih =>
    intro l2 h
    rw [List.cons_append, List.takeWhile_cons, if_pos (h a (List.mem_cons_self _ _)),
      ih l2 (fun b hb => h b (List.mem_cons_of_mem _ hb)), List.cons_append]

/-- Appending a slash-free component to a string that is empty or ends in a
slash keeps exactly that component as the basename. -/
lemma pyBasename_append (x b : String) (hb : ∀ c ∈ b.data, c ≠ '/')
    (hx : x.data.reverse.head? = some '/' ∨ x = "") : pyBasename (x ++ b) = b := by
  apply String.ext
  show ((x ++ b).data.reverse.takeWhile (fun c => c ≠ '/')).reverse = b.data
  rw [String.data_append, List.reverse_append]
  rw [takeWhile_append_of_all b.data.reverse x.data.reverse
    (fun a ha => decide_eq_true (hb a (List.mem_reverse.mp ha)))]
  have hxe : x.data.reverse.takeWhile (fun c => c ≠ '/') = [] := by
    rcases hx with hx | hx
    · match hrev : x.data.reverse with
      | [] => rfl
      | c :: t =>
        rw [hrev] at hx
        injection hx with hc
        subst hc
        rw [List.takeWhile_cons]
        simp
    · rw [hx]
      rfl
  rw [hxe, List.append_nil, List.reverse_reverse]

/-- The basename of pyJoin a b is b itself whenever b is nonempty and free of
slashes. -/
lemma pyJoin_basename (a b : String) (hb : ∀ c ∈ b.data, c ≠ '/') :
    pyBasename (pyJoin a b) = b := by
  have hcond : ¬ (b.toList.head? = some '/') := by
    intro hcon
    match hdata : b.toList with
    | [] => rw [hdata] at hcon; cases hcon
    | c :: t =>
      rw [hdata] at hcon
      injection hcon with hc
      subst hc
      exact hb '/' (by rw [show b.data = b.toList from rfl, hdata]; exact List.mem_cons_self _ _) rfl
  rw [pyJoin, if_neg hcond]
  match hrev : a.toList.reverse with
  | [] =>
    have hae : a = "" := by
      apply String.ext
      have := congrArg List.reverse hrev
      rw [List.reverse_reverse] at this
      exact this
    exact pyBasename_append a b hb (Or.inr hae)
  | c :: t =>
    show pyBasename (if c = '/' then a ++ b else a ++ "/" ++ b) = b
    by_cases hslash : c = '/'
    · rw [if_pos hslash]
      refine pyBasename_append a b hb (Or.inl ?_)
      rw [show a.data.reverse = a.toList.reverse from rfl, hrev, hslash]
      rfl
    · rw [if_neg hslash]
      refine pyBasename_append (a ++ "/") b hb (Or.inl ?_)
      rw [show (a ++ "/").data = a.data ++ ['/'] from String.data_append a "/",
        List.reverse_append]
      rfl

/-- splitext splits the name into two parts whose concatenation is the
original name. -/
lemma pySplitextBase_concat (p : String) :
    (pySplitextBase p).1 ++ (pySplitextBase p).2 = p := by
  simp only [pySplitextBase]
  split
  · exact String.append_empty p
  · split
    · exact String.append_empty p
    · apply String.ext
      rw [String.data_append]
      exact List.take_append_drop _ p.toList

/-- The output path's basename is the input basename with "_censored"
inserted before the extension. -/
lemma outputPath_basename (pdf_path : String) (output_dir : Option String) :
    pyBasename (outputPath pdf_path output_dir)
      = (pySplitextBase (pyBasename pdf_path)).1 ++ "_censored"
          ++ (pySplitextBase (pyBasename pdf_path)).2 := by
  have hchars : ∀ c ∈ ((pySplitextBase (pyBasename pdf_path)).1 ++ "_censored"
      ++ (pySplitextBase (pyBasename pdf_path)).2).data, c ≠ '/' := by
    intro c hc
    rw [String.data_append, String.data_append] at hc
    have hbase : ∀ c2 ∈ (pyBasename pdf_path).data, c2 ≠ '/' := pyBasename_chars pdf_path
    have hcat := congrArg String.data (pySplitextBase_concat (pyBasename pdf_path))
    rw [String.data_append] at hcat
    have hlit : ∀ c2 ∈ ("_censored" : String).data, c2 ≠ '/' := by decide
    rcases List.mem_append.mp hc with hc | hc
    · rcases List.mem_append.mp hc with hc | hc
      · exact hbase c (by rw [← hcat]; exact List.mem_append.mpr (Or.inl hc))
      · exact hlit c hc
    · exact hbase c (by rw [← hcat]; exact List.mem_append.mpr (Or.inr hc))
  match output_dir with
  | some d => exact pyJoin_basename d _ hchars
  | none => exact pyJoin_basename (pyDirname pdf_path) _ hchars

/-- Claim C8: censor_pdf never touches the input file: the computed output path
differs from the input path (its basename is the input basename with
"_censored" inserted before the extension, which makes it strictly longer),
and the only path the function ever saves to is that output path. -/
theorem censor_pdf_output_path_distinct :
    ∀ (pdf_path : String) (output_dir : Option String),
      outputPath pdf_path output_dir ≠ pdf_path ∧
      pyBasename (outputPath pdf_path output_dir)
        = (pySplitextBase (pyBasename pdf_path)).1 ++ "_censored"
            ++ (pySplitextBase (pyBasename pdf_path)).2 ∧
      ∀ (dict : List (Nat × List (List ℤ))) (doc : PyDoc) (include_info : Bool) (p : String),
        p ∈ (censor_pdf pdf_path dict doc output_dir include_info).writes →
        p = outputPath pdf_path output_dir := by
  intro pdf_path output_dir
  refine ⟨?_, outputPath_basename pdf_path output_dir, ?_⟩
  · intro hcon
    have hb2 := congrArg pyBasename hcon
    rw [outputPath_basename pdf_path output_dir] at hb2
    have hcat := congrArg String.data (pySplitextBase_concat (pyBasename pdf_path))
    rw [String.data_append] at hcat
    have hlen : ((pySplitextBase (pyBasename pdf_path)).1 ++ "_censored"
        ++ (pySplitextBase (pyBasename pdf_path)).2).data.length
        = (pyBasename pdf_path).data.length := by rw [hb2]
    rw [String.data_append, String.data_append, List.length_append,
      List.length_append] at hlen
    have hlen2 := congrArg List.length hcat
    rw [List.length_append] at hlen2
    have h9 : ("_censored" : String).data.length = 9 := by decide
    omega
  · intro dict doc include_info p hp
    obtain ⟨pages⟩ := doc
    match pages with
    | [] => simp [censor_pdf] at hp
    | page :: rest =>
      by_cases hs : pyStrip page.text = ""
      · simp [censor_pdf, if_pos hs] at hp
      · by_cases he : extractPass page.clip page.width (allRectangles dict) = []
        · simp [censor_pdf, if_neg hs, he] at hp
        · have hie : ¬ ((extractPass page.clip page.width (allRectangles dict)).isEmpty = true) :=
            fun hx => he (List.isEmpty_iff.mp hx)
          simp only [censor_pdf, if_neg hs, if_neg hie, List.mem_singleton] at hp
          exact hp

/-- Witness for C8: the concrete output path differs from the input path, and
the successful sample run writes only the output path. -/
theorem censor_pdf_output_path_distinct_witness :
    outputPath "in/x.pdf" none ≠ "in/x.pdf" ∧
    "in/x_censored.pdf" = outputPath "in/x.pdf" none :=
  ⟨(censor_pdf_output_path_distinct "in/x.pdf" none).1,
   (censor_pdf_output_path_distinct "in/x.pdf" none).2.2 sampleDict sampleDoc true
     "in/x_censored.pdf" (by decide)⟩

/-- Counterexample for claim C6: The counts do not always partition the input:
in process_pdf_folder, when censor_pdf returns None and the copy of the
failed file raises inside the try block, the except handler appends the file
name to failed_files a second time, so one PDF file produces two failed
entries (0 processed + 2 failed for 1 input file); in the classifier's main,
a matched file whose copy raises is counted in correct and then again in
incorrect, giving correct + incorrect = 2 for total = 1. -/
theorem folder_counts_not_partition_counterexample :
    (process_pdf_folder [⟨"a.pdf", .returnsNone, true, false⟩]
        = .ok ([], ["a.pdf", "a.pdf"]) ∧
      pdfFileCount [⟨"a.pdf", .returnsNone, true, false⟩] = 1 ∧
      ¬ (([] : List String).length + ["a.pdf", "a.pdf"].length
          = pdfFileCount [⟨"a.pdf", .returnsNone, true, false⟩])) ∧
    (mainStats [⟨"b.pdf", .matched "format1", true, false⟩]
        = { total := 1, correct := 1, incorrect := 1 } ∧
      ¬ ((1 : Nat) + 1 = 1)) := by decide

/-- The loop of process_pdf_folder partitions its input when no copy to the
failure bucket raises: starting from any accumulators, it returns normally
and adds exactly one entry for each PDF entry of the folder. -/
lemma processLoop_partition :
    ∀ (files : List CFile) (ps fs : List String),
      (∀ f ∈ files, f.copyFailsFirst = false ∧ f.copyFailsHandler = false) →
      ∃ processed failed, processLoop files ps fs = .ok (processed, failed) ∧
        processed.length + failed.length = ps.length + fs.length + pdfFileCount files := by
  intro files
  induction files with
  | nil =>
    intro ps fs _
    exact ⟨ps, fs, rfl, by simp [pdfFileCount]⟩
  | cons f rest ih =>
    intro ps fs h
    have hf := h f (List.mem_cons_self _ _)
    have hrest : ∀ g ∈ rest, g.copyFailsFirst = false ∧ g.copyFailsHandler = false :=
      fun g hg => h g (List.mem_cons_of_mem _ hg)
    by_cases hpdf : pyEndsWith (pyLower f.name) ".pdf" = true
    · have hc : pdfFileCount (f :: rest) = pdfFileCount rest + 1 := by
        simp [pdfFileCount, List.filter_cons, hpdf]
      match hout : f.outcome with
      | .success out =>
        obtain ⟨processed, failed, heq, hlen⟩ := ih (ps ++ [out]) fs hrest
        refine ⟨processed, failed, ?_, ?_⟩
        · simp only [processLoop, if_pos hpdf, hout]
          exact heq
        · rw [hc]
          simp only [List.length_append, List.length_cons, List.length_nil] at hlen
          omega
      | .returnsNone =>
        obtain ⟨processed, failed, heq, hlen⟩ := ih ps (fs ++ [f.name]) hrest
        refine ⟨processed, failed, ?_, ?_⟩
        · simp only [processLoop, if_pos hpdf, hout, hf.1, Bool.false_eq_true,
            if_false]
          exact heq
        · rw [hc]
          simp only [List.length_append, List.length_cons, List.length_nil] at hlen
          omega
      | .raises =>
        obtain ⟨processed, failed, heq, hlen⟩ := ih ps (fs ++ [f.name]) hrest
        refine ⟨processed, failed, ?_, ?_⟩
        · simp only [processLoop, if_pos hpdf, hout, hf.2, Bool.false_eq_true,
            if_false]
          exact heq
        · rw [hc]
          simp only [List.length_append, List.length_cons, List.length_nil] at hlen
          omega
    · have hc : pdfFileCount (f :: rest) = pdfFileCount rest := by
        simp [pdfFileCount, List.filter_cons, hpdf]
      obtain ⟨processed, failed, heq, hlen⟩ := ih ps fs hrest
      refine ⟨processed, failed, ?_, ?_⟩
      · simp only [processLoop, if_neg hpdf]
        exact heq
      · rw [hc]
        omega

/-- The loop of main always returns counters that grow by exactly the number
of processed files when no copy inside the try block raises. -/
lemma mainLoop_partition :
    ∀ (files : List VFile) (c i : Nat),
      (∀ f ∈ files, f.copyFails = false) →
      (mainLoop files c i).1 + (mainLoop files c i).2 = c + i + files.length := by
  intro files
  induction files with
  | nil => intro c i _; simp [mainLoop]
  | cons f rest ih =>
    intro c i h
    have hf := h f (List.mem_cons_self _ _)
    have hrest : ∀ g ∈ rest, g.copyFails = false :=
      fun g hg => h g (List.mem_cons_of_mem _ hg)
    match hout : f.outcome with
    | .matched name =>
      simp only [mainLoop, hout, hf, Bool.false_eq_true, if_false, List.length_cons]
      rw [ih (c + 1) i hrest]
      omega
    | .noMatch =>
      simp only [mainLoop, hout, hf, Bool.false_eq_true, if_false, List.length_cons]
      rw [ih c (i + 1) hrest]
      omega
    | .raises =>
      simp only [mainLoop, hout, List.length_cons]
      rw [ih c (i + 1) hrest]
      omega

/-- Claim C6 as amended: Provided no shutil.copy2 of an input file raises, the
final counts partition the input: process_pdf_folder returns normally with
one processed or failed entry per PDF file, and in the classifier's main the
correct and incorrect counters sum to the total.  (Without that proviso the
counts can double-count a file, see the counterexample.) -/
theorem folder_counts_partition :
    (∀ files : List CFile,
      (∀ f ∈ files, f.copyFailsFirst = false ∧ f.copyFailsHandler = false) →
      ∃ processed failed, process_pdf_folder files = .ok (processed, failed) ∧
        processed.length + failed.length = pdfFileCount files) ∧
    (∀ pdf_files : List VFile,
      (∀ f ∈ pdf_files, f.copyFails = false) →
      (mainStats pdf_files).correct + (mainStats pdf_files).incorrect
        = (mainStats pdf_files).total) := by
  constructor
  · intro files h
    obtain ⟨processed, failed, heq, hlen⟩ := processLoop_partition files [] [] h
    exact ⟨processed, failed, heq, by simpa using hlen⟩
  · intro pdf_files h
    have := mainLoop_partition pdf_files 0 0 h
    simpa [mainStats] using this

/-- Witness for C6 (amended) on a folder with one matched, one unmatched and
one raising file, none of whose copies fail. -/
theorem folder_counts_partition_witness :
    (mainStats [⟨"a.pdf", .matched "format1", false, false⟩,
                ⟨"b.pdf", .noMatch, false, false⟩,
                ⟨"c.pdf", .raises, false, true⟩]).correct
      + (mainStats [⟨"a.pdf", .matched "format1", false, false⟩,
                    ⟨"b.pdf", .noMatch, false, false⟩,
                    ⟨"c.pdf", .raises, false, true⟩]).incorrect
      = (mainStats [⟨"a.pdf", .matched "format1", false, false⟩,
                    ⟨"b.pdf", .noMatch, false, false⟩,
                    ⟨"c.pdf", .raises, false, true⟩]).total :=
  folder_counts_partition.2
    [⟨"a.pdf", .matched "format1", false, false⟩,
     ⟨"b.pdf", .noMatch, false, false⟩,
     ⟨"c.pdf", .raises, false, true⟩] (by decide)

/-- Counterexample for claim C7: Not every per-file exception is caught in
process_pdf_folder: when censor_pdf raises and the copy of the failed file
inside the except handler raises too, that second exception propagates and
aborts the whole batch, even though a remaining file would have processed
fine on its own. -/
theorem process_pdf_folder_abort_counterexample :
    process_pdf_folder
        [⟨"a.pdf", .raises, false, true⟩,
         ⟨"b.pdf", .success "out/b_censored.pdf", false, false⟩]
      = .error .osError ∧
    process_pdf_folder [⟨"b.pdf", .success "out/b_censored.pdf", false, false⟩]
      = .ok (["out/b_censored.pdf"], []) := by decide

/-- New processed_files accumulator after one file of process_pdf_folder. -/
def cfileStepProcessed (f : CFile) (processed_files : List String) : List String :=
  if pyEndsWith (pyLower f.name) ".pdf" then
    match f.outcome with
    | .success out => processed_files ++ [out]
    | _ => processed_files
  else processed_files

/-- New failed_files accumulator after one file of process_pdf_folder (with
the double entry left by a failing first copy whose handler copy succeeds). -/
def cfileStepFailed (f : CFile) (failed_files : List String) : List String :=
  if pyEndsWith (pyLower f.name) ".pdf" then
    match f.outcome with
    | .success _ => failed_files
    | .returnsNone =>
        if f.copyFailsFirst then failed_files ++ [f.name, f.name]
        else failed_files ++ [f.name]
    | .raises => failed_files ++ [f.name]
  else failed_files

/-- New correct counter after one file of main's loop. -/
def vfileStepCorrect (f : VFile) (correct : Nat) : Nat :=
  match f.outcome with
  | .matched _ => correct + 1
  | _ => correct

/-- New incorrect counter after one file of main's loop. -/
def vfileStepIncorrect (f : VFile) (incorrect : Nat) : Nat :=
  match f.outcome with
  | .matched _ => if f.copyFails then incorrect + 1 else incorrect
  | .noMatch => if f.copyFails then incorrect + 2 else incorrect + 1
  | .raises => incorrect + 1

/-- Claim C7 as amended: In process_pdf_folder, whenever the copy inside the
except handler cannot raise, the loop continues with the remaining files
whatever happens to the current one (censor_pdf raising included); in the
classifier's main the loop continues with the remaining files
unconditionally, every per-file exception being caught. -/
theorem folder_loop_continues :
    (∀ (f : CFile) (rest : List CFile) (ps fs : List String),
      f.copyFailsHandler = false →
      processLoop (f :: rest) ps fs
        = processLoop rest (cfileStepProcessed f ps) (cfileStepFailed f fs)) ∧
    (∀ (f : VFile) (rest : List VFile) (c i : Nat),
      mainLoop (f :: rest) c i
        = mainLoop rest (vfileStepCorrect f c) (vfileStepIncorrect f i)) := by
  constructor
  · intro f rest ps fs hh
    by_cases hpdf : pyEndsWith (pyLower f.name) ".pdf" = true
    · match hout : f.outcome with
      | .success out =>
        simp only [processLoop, cfileStepProcessed, cfileStepFailed, if_pos hpdf, hout]
      | .returnsNone =>
        by_cases hcf : f.copyFailsFirst = true
        · simp only [processLoop, cfileStepProcessed, cfileStepFailed, if_pos hpdf,
            hout, hcf, hh, Bool.false_eq_true, if_false, if_true]
        · simp only [processLoop, cfileStepProcessed, cfileStepFailed, if_pos hpdf,
            hout, Bool.not_eq_true] at hcf ⊢
          simp only [hcf, Bool.false_eq_true, if_false]
      | .raises =>
        simp only [processLoop, cfileStepProcessed, cfileStepFailed, if_pos hpdf,
          hout, hh, Bool.false_eq_true, if_false]
    · simp only [processLoop, cfileStepProcessed, cfileStepFailed, if_neg hpdf]
  · intro f rest c i
    match hout : f.outcome with
    | .matched name =>
      by_cases hcf : f.copyFails = true
      · simp only [mainLoop, vfileStepCorrect, vfileStepIncorrect, hout, hcf, if_true]
      · simp only [Bool.not_eq_true] at hcf
        simp only [mainLoop, vfileStepCorrect, vfileStepIncorrect, hout, hcf,
          Bool.false_eq_true, if_false]
    | .noMatch =>
      by_cases hcf : f.copyFails = true
      · simp only [mainLoop, vfileStepCorrect, vfileStepIncorrect, hout, hcf, if_true]
      · simp only [Bool.not_eq_true] at hcf
        simp only [mainLoop, vfileStepCorrect, vfileStepIncorrect, hout, hcf,
          Bool.false_eq_true, if_false]
    | .raises =>
      simp only [mainLoop, vfileStepCorrect, vfileStepIncorrect, hout]

/-- Witness for C7 (amended): a raising file whose handler copy succeeds lets
the loop continue, here into the empty remainder. -/
theorem folder_loop_continues_witness :
    processLoop [⟨"a.pdf", CensorOutcome.raises, false, false⟩] [] []
      = processLoop []
          (cfileStepProcessed ⟨"a.pdf", CensorOutcome.raises, false, false⟩ [])
          (cfileStepFailed ⟨"a.pdf", CensorOutcome.raises, false, false⟩ []) :=
  folder_loop_continues.1 ⟨"a.pdf", CensorOutcome.raises, false, false⟩ [] [] [] rfl
